import Mathlib

/-!
Verification of `generate_stats.py`, a GitHub profile statistics generator.

The development shallowly embeds the program's aggregation engine
(time-window chunking, pagination, fold of contribution payloads) and its
chart-geometry code (number formatting, language bar, radar chart, monthly
line chart) as executable Lean definitions, and proves or refutes the
specification's claims about them.

Modelling conventions:
* Timestamps are natural numbers counted in hours, so that one calendar day
  is 24 units. `datetime` values parsed from a date (such as the account
  creation date) are multiples of 24; `utcnow()` is an arbitrary instant.
  Day granularity of an instant `t` is `t / 24`.
* Python `dict` / `defaultdict` accumulators are total functions with the
  default value; `int` counters are `ℕ`.
* Python `float` arithmetic in chart geometry is modelled exactly over `ℚ`
  (the fractions that occur — quarters and per-mille percentages — are
  dyadic or exact at every input considered, so no rounding error arises),
  and the radar chart's trigonometry over `ℝ`.
-/

namespace GenStats

/-! ### Number formatting (`fmt_num`, generate_stats.py lines 75-82)

`fmt_num` converts with `int(n)` and then formats `n/1_000_000` or `n/1_000`
with Python's `:.1f` (one decimal, round to nearest). `oneDec n scale`
renders `n / scale` with exactly one decimal digit; the rounding of the
tenths digit is round-half-to-even, matching IEEE formatting at every exact
tie (no tie in this file's inputs is affected by binary representation). -/

def oneDecRound (num den : ℕ) : ℕ :=
  let q := num / den
  let r := num % den
  if 2 * r < den then q else if 2 * r > den then q + 1
  else if q % 2 = 0 then q else q + 1

def oneDec (n scale : ℕ) : String :=
  let t := oneDecRound (10 * n) scale
  toString (t / 10) ++ "." ++ toString (t % 10)

def fmt_num (n : ℕ) : String :=
  if n ≥ 1000000 then oneDec n 1000000 ++ "M"
  else if n ≥ 1000 then oneDec n 1000 ++ "k"
  else toString n

/-! ### Window chunking (`fetch_all_contributions`, lines 214-253)

The loop is

    chunk_start = created
    while chunk_start < now:
        chunk_end = min(chunk_start + timedelta(days=364), now)
        ... fetch [chunk_start, chunk_end] ...
        chunk_start = chunk_end + timedelta(days=1)

`windowList cs now` is the list of `(chunk_start, chunk_end)` pairs the
loop emits, in hours (364 days = 24 * 364 hours, 1 day = 24 hours). -/

def windowList (cs now : ℕ) : List (ℕ × ℕ) :=
  if h : cs < now then
    (cs, min (cs + 24 * 364) now) :: windowList (min (cs + 24 * 364) now + 24) now
  else []
termination_by now - cs
decreasing_by omega

/-! ### Pagination (`fetch_repo_stats`, lines 258-280)

The source loop is `while True: fetch page; accumulate; if hasNextPage:
cursor = endCursor else: break`. A page source is a function from the
cursor (initially `none`) to the returned page. `fetch_repo_stats src fuel
state` runs at most `fuel` iterations of the loop from `state =
(repo_count, star_count, cursor)`: it returns `some (repo_count,
star_count)` when the loop breaks within `fuel` iterations and `none` when
the loop is still running after `fuel` iterations. The unbounded Python
loop terminates with a result exactly when some finite fuel suffices. -/

structure RepoPage where
  stars : List ℕ
  hasNextPage : Bool
  endCursor : Option String

def fetch_repo_stats (src : Option String → RepoPage) :
    ℕ → ℕ × ℕ × Option String → Option (ℕ × ℕ)
  | 0, _ => none
  | fuel + 1, (repoCount, starCount, cursor) =>
    let page := src cursor
    let repoCount' := repoCount + page.stars.length
    let starCount' := starCount + page.stars.sum
    if page.hasNextPage then
      fetch_repo_stats src fuel (repoCount', starCount', page.endCursor)
    else
      some (repoCount', starCount')

/-- Cursor reached after unconditionally following `endCursor` `n` times
from a starting cursor. -/
def cursorChain (src : Option String → RepoPage) : Option String → ℕ → Option String
  | cur, 0 => cur
  | cur, n + 1 => cursorChain src ((src cur).endCursor) n

/-- A malformed page source that reports `hasNextPage = true` on every
page. -/
def runawaySrc : Option String → RepoPage :=
  fun _ => { stars := [], hasNextPage := true, endCursor := some "c" }

/-! ### Aggregation of window payloads (`fetch_all_contributions`, lines 226-250)

One window's `contributionsCollection` payload and the mutable aggregation
state. `lang_bytes` is a `defaultdict` whose default entry is
`{"bytes": 0, "color": "#888888"}`; it is modelled by the pair of total
functions in `LangHist`. `monthly` is a `defaultdict(int)`. -/

structure LangEdge where
  size : ℕ
  name : Option String
  color : Option String
deriving DecidableEq

structure RepoContrib where
  isFork : Bool
  langs : List LangEdge
deriving DecidableEq

structure DayRec where
  date : String
  contributionCount : ℕ
deriving DecidableEq

structure Payload where
  commits : ℕ
  prs : ℕ
  reviews : ℕ
  issues : ℕ
  days : List DayRec
  repos : List RepoContrib
deriving DecidableEq

structure LangHist where
  bytes : String → ℕ
  color : String → String

structure AggState where
  commits : ℕ
  prs : ℕ
  reviews : ℕ
  issues : ℕ
  monthly : String → ℕ
  langs : LangHist

/-- Python `lang.get("color") or "#888888"`: a missing, `null` or empty
color string falls back to the default gray. -/
def colorOrDefault : Option String → String
  | none => "#888888"
  | some c => if c = "" then "#888888" else c

/-- `monthly[day["date"][:7]] += day["contributionCount"]` for one calendar day. -/
def foldDay (m : String → ℕ) (d : DayRec) : String → ℕ :=
  fun k => if k = d.date.take 7 then m k + d.contributionCount else m k

/-- One language edge of one repository:
`lang_bytes[name]["bytes"] += size; lang_bytes[name]["color"] = color`.
The byte count accumulates; the color is overwritten with the value seen
in this edge. -/
def foldEdge (h : LangHist) (e : LangEdge) : LangHist :=
  { bytes := fun k => if k = e.name.getD "Other" then h.bytes k + e.size else h.bytes k
    color := fun k => if k = e.name.getD "Other" then colorOrDefault e.color else h.color k }

/-- One repository record: forks are skipped entirely, otherwise every
language edge is folded in order. -/
def foldRepo (h : LangHist) (r : RepoContrib) : LangHist :=
  if r.isFork then h else r.langs.foldl foldEdge h

/-- Fold one window's payload into the aggregation state (totals `+=`,
daily records into month buckets, non-fork language bytes). -/
def foldPayload (st : AggState) (p : Payload) : AggState :=
  { commits := st.commits + p.commits
    prs := st.prs + p.prs
    reviews := st.reviews + p.reviews
    issues := st.issues + p.issues
    monthly := p.days.foldl foldDay st.monthly
    langs := p.repos.foldl foldRepo st.langs }

/-- Initial aggregation state of `fetch_all_contributions`. -/
def initState : AggState :=
  { commits := 0, prs := 0, reviews := 0, issues := 0
    monthly := fun _ => 0
    langs := { bytes := fun _ => 0, color := fun _ => "#888888" } }

/-- Sequential fold of the window payloads in traversal order. -/
def aggregate (ps : List Payload) : AggState :=
  ps.foldl foldPayload initState

/-! Per-payload contributions, used to express the order-independent parts
of the fold as sums. -/

def dayMonthAt (k : String) (d : DayRec) : ℕ :=
  if k = d.date.take 7 then d.contributionCount else 0

def edgeBytesAt (k : String) (e : LangEdge) : ℕ :=
  if k = e.name.getD "Other" then e.size else 0

def repoBytesAt (k : String) (r : RepoContrib) : ℕ :=
  if r.isFork then 0 else (r.langs.map (edgeBytesAt k)).sum

def payloadBytesAt (k : String) (p : Payload) : ℕ :=
  (p.repos.map (repoBytesAt k)).sum

def payloadMonthAt (k : String) (p : Payload) : ℕ :=
  (p.days.map (dayMonthAt k)).sum

/-- A window payload whose single non-fork repository reports language "L"
with color `c`. Used to exhibit the order dependence of the stored color. -/
def colorPayload (c : String) : Payload :=
  { commits := 0, prs := 0, reviews := 0, issues := 0, days := []
    repos := [{ isFork := false, langs := [{ size := 1, name := some "L", color := some c }] }] }

/-! ### Language bar card (`make_charts_svg`, lines 393-445)

The card sorts `lang_bytes.items()` by byte count descending (Python's
stable sort), keeps the top 7, guards the total with `or 1`, then emits a
stacked bar (one `<rect>` per language, left to right from `x = 20` over a
455-wide bar) and a two-column legend. The SVG text is assembled exactly
as the Python f-strings do for the pieces exercised here; rational
coordinates of segments and legend entries are rendered by `ratStr`
(Python prints the `float` repr instead — the numeral spelling differs in
general, but no segment or legend entry exists for the empty input the
claims consider). The theme is the palette subset `make_charts_svg` reads. -/

structure Theme where
  card_bg : String
  border : String
  text : String
  muted : String
deriving DecidableEq

/-- Dark palette entries used by `make_charts_svg`. -/
def DARK : Theme :=
  { card_bg := "#161b22", border := "#30363d", text := "#e6edf3", muted := "#8b949e" }

/-- The `FONT` constant (apostrophes written as `\x27`). -/
def fontStr : String := "-apple-system, BlinkMacSystemFont, \x27Segoe UI\x27, sans-serif"

/-- `svg_open(width, height, theme)`. -/
def svg_open_str (w h : ℕ) (t : Theme) : String :=
  "<svg xmlns=\"http://www.w3.org/2000/svg\" width=\"" ++ toString w ++
  "\" height=\"" ++ toString h ++ "\" viewBox=\"0 0 " ++ toString w ++ " " ++
  toString h ++ "\">\n" ++
  "<rect width=\"" ++ toString w ++ "\" height=\"" ++ toString h ++
  "\" rx=\"6\" fill=\"" ++ t.card_bg ++ "\" stroke=\"" ++ t.border ++
  "\" stroke-width=\"1\"/>\n"

/-- `svg_text` at integer coordinates, default opacity (no opacity
attribute is emitted when it is 1.0). -/
def svg_text_str (x y : ℕ) (txt : String) (size : ℕ) (weight fill anchor : String) : String :=
  "<text x=\"" ++ toString x ++ "\" y=\"" ++ toString y ++ "\" font-family=\"" ++
  fontStr ++ "\" font-size=\"" ++ toString size ++ "\" font-weight=\"" ++ weight ++
  "\" fill=\"" ++ fill ++ "\" text-anchor=\"" ++ anchor ++ "\">" ++ txt ++ "</text>\n"

/-- One entry of `lang_bytes.items()`. -/
structure LangInfo where
  bytes : ℕ
  color : String
deriving DecidableEq

/-- `sorted(lang_bytes.items(), key=lambda kv: kv[1]["bytes"], reverse=True)[:top_n]`
(stable descending sort, Python guarantees stability with `reverse=True`). -/
def sortedLangs (l : List (String × LangInfo)) (topN : ℕ) : List (String × LangInfo) :=
  (l.mergeSort (fun a b => b.2.bytes ≤ a.2.bytes)).take topN

/-- `total_bytes = sum(v["bytes"] for _, v in sorted_langs) or 1`. -/
def totalOf (sl : List (String × LangInfo)) : ℕ :=
  let s := (sl.map (fun kv => kv.2.bytes)).sum
  if s = 0 then 1 else s

/-- The stacked-bar segments `(x, width, color)` produced by the
`cursor_x` loop: `pct = bytes / total`, `seg_w = bar_w * pct` with
`bar_x = 20` and `bar_w = 455`. -/
def chartSegments (sl : List (String × LangInfo)) (total : ℕ) : List (ℚ × ℚ × String) :=
  (sl.foldl
    (fun acc kv =>
      let segW : ℚ := 455 * ((kv.2.bytes : ℚ) / (total : ℚ))
      (acc.1 + segW, acc.2 ++ [(acc.1, segW, kv.2.color)]))
    ((20 : ℚ), ([] : List (ℚ × ℚ × String)))).2

/-- Legend entries `(lx, ly, name, color, pct)` with `items_per_col =
ceil(len / 2)`, two columns of width `455 / 2`, rows 22 apart below
`legend_top = 74`; `pct` is the percentage of the top-K total. Python
would divide by zero in `i // items_per_col` only if the list were
non-empty with `items_per_col = 0`, which cannot happen. -/
def chartLegend (sl : List (String × LangInfo)) (total : ℕ) :
    List (ℚ × ℚ × String × String × ℚ) :=
  (List.range sl.length).zip sl |>.map (fun iv =>
    let itemsPerCol := (sl.length + 1) / 2
    let col := iv.1 / itemsPerCol
    let row := iv.1 % itemsPerCol
    ((20 : ℚ) + col * ((455 : ℚ) / 2), (74 : ℚ) + row * 22,
      iv.2.1, iv.2.2.color, (iv.2.2.bytes : ℚ) / (total : ℚ) * 100))

/-- Exact rendering of a rational coordinate (see the section comment). -/
def ratStr (q : ℚ) : String := toString q

/-- `svg_rect(cursor_x, bar_y, seg_w, bar_h, fill=color, rx=0)` for one
bar segment. -/
def segmentRectStr (s : ℚ × ℚ × String) : String :=
  "<rect x=\"" ++ ratStr s.1 ++ "\" y=\"50\" width=\"" ++ ratStr s.2.1 ++
  "\" height=\"10\" rx=\"0\" fill=\"" ++ s.2.2 ++ "\"/>\n"

/-- One legend entry: color dot, language name, percentage to one decimal. -/
def legendEntryStr (t : Theme) (e : ℚ × ℚ × String × String × ℚ) : String :=
  "<circle cx=\"" ++ ratStr (e.1 + 5) ++ "\" cy=\"" ++ ratStr (e.2.1 + 1) ++
  "\" r=\"5\" fill=\"" ++ e.2.2.2.1 ++ "\"/>\n" ++
  "<text x=\"" ++ ratStr (e.1 + 16) ++ "\" y=\"" ++ ratStr (e.2.1 + 5) ++
  "\" font-family=\"" ++ fontStr ++ "\" font-size=\"11\" font-weight=\"normal\" fill=\"" ++
  t.text ++ "\" text-anchor=\"start\">" ++ e.2.2.1 ++ "</text>\n" ++
  "<text x=\"" ++ ratStr (e.1 + 455 / 2 - 4) ++ "\" y=\"" ++ ratStr (e.2.1 + 5) ++
  "\" font-family=\"" ++ fontStr ++ "\" font-size=\"11\" font-weight=\"normal\" fill=\"" ++
  t.muted ++ "\" text-anchor=\"end\">" ++ oneDec (e.2.2.2.2.num.toNat) (e.2.2.2.2.den) ++ "%</text>\n"

/-- The `<defs>` clip path for the rounded bar. -/
def clipDefsStr : String :=
  "<defs><clipPath id=\"bar-clip\"><rect x=\"20\" y=\"50\" width=\"455\" height=\"10\" rx=\"5\"/></clipPath></defs>\n"

/-- `make_charts_svg(theme, lang_bytes)`: title, clipped stacked bar,
legend, for the 495x195 card. -/
def make_charts_svg (t : Theme) (l : List (String × LangInfo)) : String :=
  svg_open_str 495 195 t ++
  svg_text_str 20 35 "Top Languages" 15 "600" t.text "start" ++
  clipDefsStr ++
  "<g clip-path=\"url(#bar-clip)\">\n" ++
  String.join ((chartSegments (sortedLangs l 7) (totalOf (sortedLangs l 7))).map segmentRectStr) ++
  "</g>\n" ++
  String.join ((chartLegend (sortedLangs l 7) (totalOf (sortedLangs l 7))).map (legendEntryStr t)) ++
  "</svg>\n"

/-- Substring test on character lists (used to check that a document does
not contain a given note). -/
def hasSub (pat : List Char) : List Char → Bool
  | [] => false
  | c :: rest => pat.isPrefixOf (c :: rest) || hasSub pat rest

/-! ### Monthly line chart (`make_monthly_svg`, lines 555-632)

Chart constants for the 1000x200 card: `chart_l = 48`, `chart_r = 976`,
`chart_t = 48`, `chart_b = 164`, `chart_h = 116`. -/

/-- `max_val = max(values) if values else 1; if max_val == 0: max_val = 1`
(an empty list and an all-zero list both leave `max_val = 1`). -/
def maxValOf (values : List ℕ) : ℕ :=
  if values.foldr max 0 = 0 then 1 else values.foldr max 0

/-- `pt_y(v) = chart_b - (v / max_val) * chart_h`. -/
def ptY (maxVal v : ℕ) : ℚ := 164 - ((v : ℚ) / (maxVal : ℚ)) * 116

/-- The fractions of the horizontal grid lines. -/
def gridFracs : List ℚ := [1/4, 1/2, 3/4, 1]

/-- `gv = int(frac * max_val)` for each grid line: truncation toward zero
of the exactly-computed dyadic product (the value is non-negative, so
`int()` is the floor). -/
def gridVals (maxVal : ℕ) : List ℕ :=
  gridFracs.map (fun f => ⌊f * (maxVal : ℚ)⌋₊)

/-- The grid-line label values the specification describes:
`round(frac * max_val)` (rounding to the nearest integer). -/
def gridValsRound (maxVal : ℕ) : List ℤ :=
  gridFracs.map (fun f => round (f * (maxVal : ℚ)))

/-- The grid-line label strings, `fmt_num(gv)`. -/
def gridLabels (maxVal : ℕ) : List String :=
  (gridVals maxVal).map fmt_num

/-- The y-coordinates of the area polygon: baseline-left, one point per
month value, baseline-right (`chart_b = 164`). -/
def areaYs (values : List ℕ) : List ℚ :=
  164 :: (values.map (ptY (maxValOf values)) ++ [164])

/-- An 18-month series that is zero except for a single month at 3. -/
def vals3 : List ℕ := [0, 0, 0, 0, 0, 0, 0, 0, 0, 0, 0, 0, 0, 0, 0, 0, 0, 3]

/-! ### Month-key selection (`make_monthly_svg`, lines 562-574) and the
Gregorian calendar

The source computes `(now - timedelta(days=i * 30)).strftime("%Y-%m")` for
`i` from 17 down to 0. Dates are modelled as day counts from 0000-03-01
using the standard civil-from-days / days-from-civil conversion which the
Python `datetime` library implements (proleptic Gregorian calendar).
A month key `"YYYY-MM"` is represented as the pair (year, month). -/

/-- Day number of the Gregorian date `y-m-d`, counted from 0000-03-01. -/
def daysFromCivil (y m d : ℕ) : ℕ :=
  let y' := if m ≤ 2 then y - 1 else y
  let era := y' / 400
  let yoe := y' % 400
  let mp := if m ≤ 2 then m + 9 else m - 3
  let doy := (153 * mp + 2) / 5 + (d - 1)
  let doe := yoe * 365 + yoe / 4 - yoe / 100 + doy
  era * 146097 + doe

/-- Year and month of a day number (inverse direction of `daysFromCivil`). -/
def civilMonth (z : ℕ) : ℕ × ℕ :=
  let era := z / 146097
  let doe := z % 146097
  let yoe := (doe - doe / 1460 + doe / 36524 - doe / 146096) / 365
  let y := yoe + era * 400
  let doy := doe - (365 * yoe + yoe / 4 - yoe / 100)
  let mp := (5 * doy + 2) / 153
  let m := if mp < 10 then mp + 3 else mp - 9
  (if m ≤ 2 then y + 1 else y, m)

/-- The 18 month keys `make_monthly_svg` looks up, oldest first:
`strftime("%Y-%m")` of `now - i*30 days` for `i = 17, 16, ..., 0`. -/
def monthKeys (now : ℕ) : List (ℕ × ℕ) :=
  (List.range 18).map (fun j => civilMonth (now - (17 - j) * 30))

/-! ### Radar chart (`pentagon_point` lines 452-455, `make_activity_svg`
lines 489-498)

Real-valued geometry: axis `i` of `n` points at angle `-π/2 + i·(2π/n)`. -/

/-- `pentagon_point(cx, cy, radius, axis_index, n_axes)`. -/
noncomputable def pentagon_point (cx cy radius : ℝ) (i nAxes : ℕ) : ℝ × ℝ :=
  (cx + radius * Real.cos (-(Real.pi / 2) + (2 * Real.pi / nAxes) * i),
   cy + radius * Real.sin (-(Real.pi / 2) + (2 * Real.pi / nAxes) * i))

/-- `v = min(value / benchmark, 1.0) if benchmark else 0`. -/
noncomputable def normVal (value benchmark : ℝ) : ℝ :=
  if benchmark = 0 then 0 else min (value / benchmark) 1

/-- The data-polygon vertex of axis `i`:
`pentagon_point(cx, cy, max_r * v, i, n)`. -/
noncomputable def dataVertex (cx cy maxR value benchmark : ℝ) (i nAxes : ℕ) : ℝ × ℝ :=
  pentagon_point cx cy (maxR * normVal value benchmark) i nAxes

/-! ## Theorems -/

/-- C3: the spec and the function's own docstring promise `1000000 → "1M"`
and `1000 → "1k"` (a trailing ".0" dropped), but the code formats with
`:.1f` unconditionally and never drops the ".0": `fmt_num` returns
`"1.0M"` and `"1.0k"` there. The sub-thousand case and `1500 → "1.5k"`
behave as claimed. -/
theorem fmt_num_keeps_trailing_zero :
    fmt_num 999 = "999" ∧ fmt_num 1500 = "1.5k" ∧
    fmt_num 1000 = "1.0k" ∧ fmt_num 1000000 = "1.0M" ∧
    "1.0k" ≠ "1k" ∧ "1.0M" ≠ "1M" := by
  decide

/-- C6: stepping back by `i * 30` days does not enumerate the last 18
distinct calendar months. Run on 2026-03-31, the 18 keys contain
`2026-03` twice (offsets 30 and 0 are both in March), `2025-12` twice,
and `2026-02` never — the claim's "each month appearing once" fails. -/
theorem month_keys_duplicate_mar31 :
    (monthKeys (daysFromCivil 2026 3 31))[16]? = some (2026, 3) ∧
    (monthKeys (daysFromCivil 2026 3 31))[17]? = some (2026, 3) ∧
    (2026, 2) ∉ monthKeys (daysFromCivil 2026 3 31) ∧
    ¬ (monthKeys (daysFromCivil 2026 3 31)).Nodup := by
  decide

/-- C10: a language edge whose reported color is `null`/absent stores the
default `"#888888"`, and because every occurrence overwrites the stored
color, a null-colored edge folded after a real-colored one resets the
language's color to `"#888888"`. -/
theorem null_color_defaults (h : LangHist) (name : String) (sz1 sz2 : ℕ) (c : String) :
    (foldEdge h { size := sz1, name := some name, color := none }).color name = "#888888" ∧
    (foldEdge (foldEdge h { size := sz1, name := some name, color := some c })
      { size := sz2, name := some name, color := none }).color name = "#888888" := by
  constructor <;> simp [foldEdge, colorOrDefault]

/-- C9: with a positive benchmark, a metric equal to its benchmark
normalizes to 1 and its vertex lies exactly on the outer ring
(`pentagon_point cx cy max_r i`), a metric of 0 yields a vertex exactly at
the center `(cx, cy)`, and the normalization is `min(value/benchmark, 1)`. -/
theorem radar_normalization (cx cy maxR v b : ℝ) (i nA : ℕ) (hb : 0 < b) :
    normVal b b = 1 ∧
    dataVertex cx cy maxR b b i nA = pentagon_point cx cy maxR i nA ∧
    dataVertex cx cy maxR 0 b i nA = (cx, cy) ∧
    normVal v b = min (v / b) 1 := by
  have hb' : b ≠ 0 := ne_of_gt hb
  refine ⟨?_, ?_, ?_, ?_⟩
  · simp [normVal, hb', div_self hb']
  · simp [dataVertex, normVal, hb', div_self hb']
  · simp [dataVertex, normVal, hb', pentagon_point, zero_div,
      min_eq_left (zero_le_one' ℝ)]
  · simp [normVal, hb']

/-- Witness for C9 at `cx = cy = 0`, `max_r = 72`, benchmark 1, value 2. -/
theorem radar_normalization_witness :
    normVal 1 1 = 1 ∧
    dataVertex 0 0 72 1 1 0 5 = pentagon_point 0 0 72 0 5 ∧
    dataVertex 0 0 72 0 1 0 5 = ((0 : ℝ), (0 : ℝ)) ∧
    normVal 2 1 = min (2 / 1) 1 :=
  radar_normalization 0 0 72 2 1 0 5 (by norm_num)

/-- C8: a repository flagged `isFork` is skipped entirely by the fold, so
the aggregation of a payload equals the aggregation of the same payload
with that repository removed — it contributes zero bytes (and no color)
to the language histogram whatever languages it reports. -/
theorem fork_contributes_nothing (st : AggState) (p : Payload)
    (pre post : List RepoContrib) (r : RepoContrib)
    (hsplit : p.repos = pre ++ r :: post) (hfork : r.isFork = true) :
    foldPayload st p = foldPayload st { p with repos := pre ++ post } := by
  simp only [foldPayload, hsplit]
  congr 1
  rw [List.foldl_append, List.foldl_append]
  simp [foldRepo, hfork]

/-- Helper: sorting an empty language mapping yields the empty list. -/
theorem sortedLangs_nil (n : ℕ) : sortedLangs [] n = [] := by
  simp [sortedLangs]

set_option maxRecDepth 8000

/-- Helper: the document `make_charts_svg` emits for the empty language
mapping, written out as the concatenation of its fixed parts. -/
theorem make_charts_svg_dark_nil :
    make_charts_svg DARK [] =
      svg_open_str 495 195 DARK ++
      svg_text_str 20 35 "Top Languages" 15 "600" DARK.text "start" ++
      clipDefsStr ++ "<g clip-path=\"url(#bar-clip)\">\n" ++ "</g>\n" ++ "</svg>\n" := by
  unfold make_charts_svg
  rw [sortedLangs_nil]
  decide

/-- C7 (amended): on an empty language mapping `make_charts_svg` is total —
the `or 1` guard avoids the zero division — and produces the fixed valid
document with no bar segments and no legend entries. The claim's "no data"
note does not exist (see the counterexample below); the bar region is
simply an empty clipped group. -/
theorem charts_empty_renders_valid :
    sortedLangs [] 7 = [] ∧
    totalOf (sortedLangs [] 7) = 1 ∧
    chartSegments (sortedLangs [] 7) (totalOf (sortedLangs [] 7)) = [] ∧
    chartLegend (sortedLangs [] 7) (totalOf (sortedLangs [] 7)) = [] ∧
    make_charts_svg DARK [] =
      svg_open_str 495 195 DARK ++
      svg_text_str 20 35 "Top Languages" 15 "600" DARK.text "start" ++
      clipDefsStr ++ "<g clip-path=\"url(#bar-clip)\">\n" ++ "</g>\n" ++ "</svg>\n" := by
  refine ⟨sortedLangs_nil 7, ?_, ?_, ?_, make_charts_svg_dark_nil⟩ <;>
    (rw [sortedLangs_nil]; rfl)

/-- C7 counterexample: the document emitted for an empty language mapping
contains no "no data" note anywhere. -/
theorem charts_empty_note_missing :
    hasSub "no data".toList (make_charts_svg DARK []).toList = false := by
  rw [make_charts_svg_dark_nil]
  decide

/-- Helper: an upper bound for `foldr max 0`. -/
theorem foldr_max_le (V : ℕ) : ∀ l : List ℕ, (∀ v ∈ l, v ≤ V) → l.foldr max 0 ≤ V := by
  intro l
  induction l with
  | nil => simp
  | cons a l ih =>
    intro hb
    have h1 := hb a (by simp)
    have h2 := ih (fun v hv => hb v (by simp [hv]))
    simp only [List.foldr_cons]
    omega

/-- Helper: `foldr max 0` dominates every member. -/
theorem le_foldr_max (V : ℕ) : ∀ l : List ℕ, V ∈ l → V ≤ l.foldr max 0 := by
  intro l
  induction l with
  | nil => simp
  | cons a l ih =>
    intro hm
    rcases List.mem_cons.1 hm with rfl | hm
    · simp only [List.foldr_cons]; omega
    · have := ih hm
      simp only [List.foldr_cons]; omega

/-- Helper: a lower bound for `foldr min 164`. -/
theorem le_foldr_min (l : List ℚ) (hb : ∀ y ∈ l, (48 : ℚ) ≤ y) :
    (48 : ℚ) ≤ l.foldr min 164 := by
  induction l with
  | nil => norm_num
  | cons a l ih =>
    simp only [List.foldr_cons, le_min_iff]
    exact ⟨hb a (by simp), ih (fun y hy => hb y (by simp [hy]))⟩

/-- Helper: `foldr min 164` is at most any member. -/
theorem foldr_min_le (l : List ℚ) (hm : (48 : ℚ) ∈ l) : l.foldr min 164 ≤ 48 := by
  induction l with
  | nil => simp at hm
  | cons a l ih =>
    rcases List.mem_cons.1 hm with rfl | hm'
    · simp only [List.foldr_cons]; exact min_le_left _ _
    · simp only [List.foldr_cons]
      exact le_trans (min_le_right _ _) (ih hm')

/-- Helper: the grid values are floors of the exact quarter products. -/
theorem gridVals_closed (mv : ℕ) : gridVals mv = [mv / 4, mv / 2, 3 * mv / 4, mv] := by
  simp only [gridVals, gridFracs, List.map]
  have h4 : ((1 : ℚ)/4) * mv = (mv : ℚ) / ((4 : ℕ) : ℚ) := by push_cast; ring
  have h2 : ((1 : ℚ)/2) * mv = (mv : ℚ) / ((2 : ℕ) : ℚ) := by push_cast; ring
  have h34 : ((3 : ℚ)/4) * mv = ((3 * mv : ℕ) : ℚ) / ((4 : ℕ) : ℚ) := by push_cast; ring
  rw [h4, h2, h34, Nat.floor_div_nat, Nat.floor_div_nat, Nat.floor_div_nat]
  rw [Nat.floor_natCast, Nat.floor_natCast]
  simp [Nat.floor_natCast]

/-- C5 (amended): for 18 months of data all zero except one month at
`V > 0`, the chart maximum is `V`, the y for `V` is the chart top 48, the
area polygon's peak (smallest) y equals that y, and each grid-line label
value is the *truncation* `int(frac * max_val)` — the floors
`V/4, V/2, 3V/4, V` — not the claim's `round(frac * max_val)` (see the
counterexample). -/
theorem monthly_peak_and_grid_labels (values : List ℕ) (V : ℕ)
    (hlen : values.length = 18) (hmem : V ∈ values) (hV : 0 < V)
    (hall : ∀ v ∈ values, v = 0 ∨ v = V) :
    maxValOf values = V ∧
    ptY (maxValOf values) V = 48 ∧
    (areaYs values).foldr min 164 = ptY (maxValOf values) V ∧
    gridVals (maxValOf values) = [V / 4, V / 2, 3 * V / 4, V] ∧
    gridLabels (maxValOf values) =
      [fmt_num (V / 4), fmt_num (V / 2), fmt_num (3 * V / 4), fmt_num V] := by
  have hmax : maxValOf values = V := by
    have hle : values.foldr max 0 ≤ V :=
      foldr_max_le V values (fun v hv => by rcases hall v hv with rfl | rfl <;> omega)
    have hge : V ≤ values.foldr max 0 := le_foldr_max V values hmem
    have hfold : values.foldr max 0 = V := le_antisymm hle hge
    unfold maxValOf
    rw [hfold, if_neg hV.ne']
  have hVq : ((V : ℚ)) ≠ 0 := by exact_mod_cast hV.ne'
  have hptV : ptY V V = 48 := by
    unfold ptY
    rw [div_self hVq]
    norm_num
  have hpt0 : ptY V 0 = 164 := by simp [ptY]
  have hys : ∀ y ∈ areaYs values, y = 48 ∨ y = 164 := by
    intro y hy
    rcases List.mem_cons.1 hy with rfl | hy'
    · right; rfl
    rcases List.mem_append.1 hy' with hy'' | hy''
    · obtain ⟨v, hv, rfl⟩ := List.mem_map.1 hy''
      rcases hall v hv with rfl | rfl
      · right; rw [hmax]; exact hpt0
      · left; rw [hmax]; exact hptV
    · right; simpa using hy''
  have h48 : (48 : ℚ) ∈ areaYs values := by
    have hmm : ptY (maxValOf values) V ∈ values.map (ptY (maxValOf values)) :=
      List.mem_map.2 ⟨V, hmem, rfl⟩
    have heq : ptY (maxValOf values) V = 48 := by rw [hmax]; exact hptV
    rw [heq] at hmm
    exact List.mem_cons.2 (Or.inr (List.mem_append.2 (Or.inl hmm)))
  have hmin : (areaYs values).foldr min 164 = 48 :=
    le_antisymm (foldr_min_le _ h48)
      (le_foldr_min _ (fun y hy => by rcases hys y hy with rfl | rfl <;> norm_num))
  refine ⟨hmax, by rw [hmax]; exact hptV, by rw [hmax, hptV]; exact hmin, ?_, ?_⟩
  · rw [hmax, gridVals_closed]
  · rw [gridLabels, hmax, gridVals_closed]; rfl

/-- Witness for C5: the series `vals3` (17 zeros then a 3). -/
theorem monthly_peak_and_grid_labels_witness :
    maxValOf vals3 = 3 ∧
    ptY (maxValOf vals3) 3 = 48 ∧
    (areaYs vals3).foldr min 164 = ptY (maxValOf vals3) 3 ∧
    gridVals (maxValOf vals3) = [0, 1, 2, 3] ∧
    gridLabels (maxValOf vals3) = [fmt_num 0, fmt_num 1, fmt_num 2, fmt_num 3] :=
  monthly_peak_and_grid_labels vals3 3 (by decide) (by decide) (by decide) (by decide)

/-- C5 counterexample: at `max_val = 3` the code's grid label values are
the truncations `[0, 1, 2, 3]`, while the claim's `round(frac * max_val)`
gives `[1, 2, 2, 3]` — they differ at the 25% and 50% lines. -/
theorem grid_label_truncates_not_rounds :
    maxValOf vals3 = 3 ∧
    gridVals 3 = [0, 1, 2, 3] ∧
    gridValsRound 3 = [1, 2, 2, 3] ∧
    (gridVals 3).map (fun n => (n : ℤ)) ≠ gridValsRound 3 := by
  have h1 : gridVals 3 = [0, 1, 2, 3] := by
    rw [gridVals_closed]
  have h2 : gridValsRound 3 = [1, 2, 2, 3] := by
    simp only [gridValsRound, gridFracs, List.map]
    norm_num [round_eq]
  exact ⟨by decide, h1, h2, by rw [h1, h2]; decide⟩

/-- Helper: the unfolding equation of the chunking loop. -/
theorem windowList_eq (cs now : ℕ) : windowList cs now =
    if cs < now then
      (cs, min (cs + 24 * 364) now) :: windowList (min (cs + 24 * 364) now + 24) now
    else [] := by
  rw [windowList]
  split <;> rfl

/-- Helper: the first emitted window starts at the cursor. -/
theorem windowList_head (cs now : ℕ) (h : cs < now) :
    (windowList cs now).head? = some (cs, min (cs + 24 * 364) now) := by
  rw [windowList_eq, if_pos h]
  rfl

/-- Helper: every emitted window starts at or after the cursor, starts
before `now`, and ends at `min (start + 364 days) now`. -/
theorem windowList_mem : ∀ (k cs now : ℕ), now - cs ≤ k →
    ∀ w ∈ windowList cs now, cs ≤ w.1 ∧ w.1 < now ∧ w.2 = min (w.1 + 24 * 364) now := by
  intro k
  induction k with
  | zero =>
    intro cs now hk w hw
    rw [windowList_eq, if_neg (by omega)] at hw
    simp at hw
  | succ k ih =>
    intro cs now hk w hw
    by_cases h : cs < now
    · rw [windowList_eq, if_pos h] at hw
      rcases List.mem_cons.1 hw with rfl | hw'
      · exact ⟨le_refl _, h, rfl⟩
      · obtain ⟨h1, h2, h3⟩ := ih (min (cs + 24 * 364) now + 24) now (by omega) w hw'
        exact ⟨by omega, h2, h3⟩
    · rw [windowList_eq, if_neg h] at hw
      simp at hw

/-- Helper: consecutive windows chain exactly one day apart — the next
window's start is the previous window's end plus one day. -/
theorem windowList_chain : ∀ (k cs now : ℕ), now - cs ≤ k →
    List.Chain' (fun a b : ℕ × ℕ => b.1 = a.2 + 24) (windowList cs now) := by
  intro k
  induction k with
  | zero =>
    intro cs now hk
    rw [windowList_eq, if_neg (by omega)]
    simp
  | succ k ih =>
    intro cs now hk
    by_cases h : cs < now
    · rw [windowList_eq, if_pos h]
      refine List.chain'_cons'.2 ⟨?_, ih (min (cs + 24 * 364) now + 24) now (by omega)⟩
      intro y hy
      by_cases h2 : min (cs + 24 * 364) now + 24 < now
      · rw [windowList_eq, if_pos h2] at hy
        simp only [List.head?_cons, Option.mem_def, Option.some.injEq] at hy
        rw [← hy]
      · rw [windowList_eq, if_neg h2] at hy
        simp at hy
    · rw [windowList_eq, if_neg h]
      simp

/-- Helper: the last window's end `e` satisfies `e ≤ now ≤ e + 24`, and is
either exactly `now` or a midnight. -/
theorem windowList_last : ∀ (k cs now : ℕ), now - cs ≤ k → cs < now → 24 ∣ cs →
    ∃ s e, (windowList cs now).getLast? = some (s, e) ∧
      e ≤ now ∧ now ≤ e + 24 ∧ (e = now ∨ 24 ∣ e) := by
  intro k
  induction k with
  | zero =>
    intro cs now hk hlt hdvd
    exact absurd hlt (by omega)
  | succ k ih =>
    intro cs now hk hlt hdvd
    rw [windowList_eq, if_pos hlt]
    by_cases h2 : min (cs + 24 * 364) now + 24 < now
    · have he : min (cs + 24 * 364) now = cs + 24 * 364 := by omega
      obtain ⟨s, e, hl, he1, he2, he3⟩ :=
        ih (min (cs + 24 * 364) now + 24) now (by omega) (by omega) (by omega)
      refine ⟨s, e, ?_, he1, he2, he3⟩
      rw [windowList_eq, if_pos h2] at hl ⊢
      rw [List.getLast?_cons_cons]
      exact hl
    · refine ⟨cs, min (cs + 24 * 364) now, ?_, by omega, by omega, by omega⟩
      rw [windowList_eq, if_neg h2]
      rfl

/-- Helper: day-granularity coverage — assuming the account creation is a
midnight and `now` is not, a day `d` is covered by some emitted window iff
it lies in `[created, now)`. -/
theorem windowList_cover : ∀ (k cs now : ℕ), now - cs ≤ k → cs < now → 24 ∣ cs →
    ¬ 24 ∣ now → ∀ d : ℕ,
    (∃ w ∈ windowList cs now, w.1 / 24 ≤ d ∧ d ≤ w.2 / 24) ↔
      (cs / 24 ≤ d ∧ 24 * d < now) := by
  intro k
  induction k with
  | zero =>
    intro cs now hk hlt
    exact absurd hlt (by omega)
  | succ k ih =>
    intro cs now hk hlt hdvd hmid d
    rw [windowList_eq, if_pos hlt]
    by_cases h2 : min (cs + 24 * 364) now + 24 < now
    · have he : min (cs + 24 * 364) now = cs + 24 * 364 := by omega
      have ihd := ih (min (cs + 24 * 364) now + 24) now (by omega) (by omega) (by omega) hmid d
      constructor
      · rintro ⟨w, hw, hw1, hw2⟩
        rcases List.mem_cons.1 hw with rfl | hw'
        · have hw1' : cs / 24 ≤ d := hw1
          have hw2' : d ≤ (min (cs + 24 * 364) now) / 24 := hw2
          exact ⟨hw1', by omega⟩
        · have hcov := ihd.mp ⟨w, hw', hw1, hw2⟩
          exact ⟨by omega, hcov.2⟩
      · rintro ⟨hd1, hd2⟩
        by_cases hd : d ≤ (min (cs + 24 * 364) now) / 24
        · exact ⟨(cs, min (cs + 24 * 364) now), List.mem_cons_self _ _, hd1, hd⟩
        · obtain ⟨w, hw, hw1, hw2⟩ := ihd.mpr ⟨by omega, hd2⟩
          exact ⟨w, List.mem_cons.2 (Or.inr hw), hw1, hw2⟩
    · have htail : windowList (min (cs + 24 * 364) now + 24) now = [] := by
        rw [windowList_eq, if_neg h2]
      rw [htail]
      constructor
      · rintro ⟨w, hw, hw1, hw2⟩
        rcases List.mem_cons.1 hw with rfl | hw'
        · have hw1' : cs / 24 ≤ d := hw1
          have hw2' : d ≤ (min (cs + 24 * 364) now) / 24 := hw2
          exact ⟨hw1', by omega⟩
        · simp at hw'
      · rintro ⟨hd1, hd2⟩
        refine ⟨(cs, min (cs + 24 * 364) now), List.mem_cons_self _ _, hd1, ?_⟩
        show d ≤ (min (cs + 24 * 364) now) / 24
        omega

/-- Helper: an account created less than 365 days before `now` yields a
single window. -/
theorem windowList_single (cs now : ℕ) (h : cs < now) (h365 : now < cs + 24 * 365) :
    (windowList cs now).length = 1 := by
  rw [windowList_eq, if_pos h, windowList_eq, if_neg (by omega)]
  rfl

/-- C1 (amended): for a midnight `created < now` with `now` strictly
inside a day (`utcnow()` is not an exact midnight), the emitted windows
start at `created`, chain with the next start one day after the previous
end (no gap, no overlap at day granularity), each spans at most 365
calendar days, the last window's end falls on the day of `now` so the
windows tile `[created, now)` exactly at day granularity, and an account
created less than 365 days ago yields exactly one window. (When `now` is
an exact midnight and `now - created` is a positive multiple of 365 days,
the last window's end is one day before `now` — see the counterexample —
so the claim's "last window's end equals now" needs this amendment.) -/
theorem window_chunking_tiles (c now : ℕ) (hc : 24 ∣ c) (hlt : c < now)
    (hmid : ¬ 24 ∣ now) :
    (windowList c now).head?.map Prod.fst = some c ∧
    List.Chain' (fun a b : ℕ × ℕ => b.1 = a.2 + 24) (windowList c now) ∧
    (∀ w ∈ windowList c now, w.1 ≤ w.2 ∧ w.2 ≤ w.1 + 24 * 364) ∧
    (∀ e ∈ ((windowList c now).getLast?).map Prod.snd, e / 24 = now / 24) ∧
    (∀ d : ℕ, (∃ w ∈ windowList c now, w.1 / 24 ≤ d ∧ d ≤ w.2 / 24) ↔
      (c / 24 ≤ d ∧ 24 * d < now)) ∧
    (now < c + 24 * 365 → (windowList c now).length = 1) := by
  refine ⟨?_, windowList_chain (now - c) c now le_rfl, ?_, ?_, ?_,
    fun h365 => windowList_single c now hlt h365⟩
  · rw [windowList_head c now hlt]
    rfl
  · intro w hw
    obtain ⟨h1, h2, h3⟩ := windowList_mem (now - c) c now le_rfl w hw
    omega
  · intro e he
    obtain ⟨s, e', hl, a1, a2, a3⟩ := windowList_last (now - c) c now le_rfl hlt hc
    rw [hl] at he
    simp only [Option.map_some', Option.mem_def, Option.some.injEq] at he
    subst he
    omega
  · intro d
    exact windowList_cover (now - c) c now le_rfl hlt hc hmid d

/-- Witness for C1 at `created = 0`, `now = 25` (one day and one hour):
one window, starting at the creation instant. -/
theorem window_chunking_tiles_witness :
    (windowList 0 25).head?.map Prod.fst = some 0 ∧ (windowList 0 25).length = 1 := by
  obtain ⟨h1, _, _, _, _, h6⟩ := window_chunking_tiles 0 25 (by omega) (by omega) (by omega)
  exact ⟨h1, h6 (by norm_num)⟩

/-- C1 counterexample: for `created` a midnight and `now` exactly 365 days
later (both valid timestamps with `created < now`), the loop emits the
single window `[day 0, day 364]` whose end is one day short of `now` —
the claim's "the last window's end equals now" fails, as instants and at
day granularity. -/
theorem window_last_end_misses_now :
    (0 : ℕ) < 24 * 365 ∧ (24 : ℕ) ∣ 0 ∧
    windowList 0 (24 * 365) = [(0, 24 * 364)] ∧
    ((windowList 0 (24 * 365)).getLast?).map Prod.snd = some (24 * 364) ∧
    (24 * 364 : ℕ) ≠ 24 * 365 ∧ (24 * 364) / 24 ≠ (24 * 365) / 24 := by
  have h : windowList 0 (24 * 365) = [(0, 24 * 364)] := by
    rw [windowList_eq, if_pos (by norm_num), windowList_eq, if_neg (by decide)]
    decide
  refine ⟨by norm_num, ⟨0, rfl⟩, h, by rw [h]; rfl, by norm_num, by norm_num⟩

/-- Helper: one day's fold adds the day's month contribution pointwise. -/
theorem foldDay_apply (m : String → ℕ) (d : DayRec) (k : String) :
    foldDay m d k = m k + dayMonthAt k d := by
  by_cases h : k = d.date.take 7 <;> simp [foldDay, dayMonthAt, h]

/-- Helper: folding a list of days adds the sum of their month
contributions pointwise. -/
theorem foldl_foldDay_apply (ds : List DayRec) : ∀ (m : String → ℕ) (k : String),
    (ds.foldl foldDay m) k = m k + (ds.map (dayMonthAt k)).sum := by
  induction ds with
  | nil => simp
  | cons d ds ih =>
    intro m k
    simp only [List.foldl_cons, List.map_cons, List.sum_cons, ih, foldDay_apply]
    omega

/-- Helper: one language edge adds its byte contribution pointwise. -/
theorem foldEdge_bytes (h : LangHist) (e : LangEdge) (k : String) :
    (foldEdge h e).bytes k = h.bytes k + edgeBytesAt k e := by
  by_cases hk : k = e.name.getD "Other" <;> simp [foldEdge, edgeBytesAt, hk]

/-- Helper: folding a list of edges adds the sum of their byte
contributions pointwise. -/
theorem foldl_foldEdge_bytes (es : List LangEdge) : ∀ (h : LangHist) (k : String),
    ((es.foldl foldEdge h).bytes) k = h.bytes k + (es.map (edgeBytesAt k)).sum := by
  induction es with
  | nil => simp
  | cons e es ih =>
    intro h k
    simp only [List.foldl_cons, List.map_cons, List.sum_cons, ih, foldEdge_bytes]
    omega

/-- Helper: one repository adds its (fork-filtered) byte contribution. -/
theorem foldRepo_bytes (h : LangHist) (r : RepoContrib) (k : String) :
    (foldRepo h r).bytes k = h.bytes k + repoBytesAt k r := by
  cases hf : r.isFork <;> simp [foldRepo, hf, repoBytesAt, foldl_foldEdge_bytes]

/-- Helper: folding a list of repositories adds the sum of their byte
contributions pointwise. -/
theorem foldl_foldRepo_bytes (rs : List RepoContrib) : ∀ (h : LangHist) (k : String),
    ((rs.foldl foldRepo h).bytes) k = h.bytes k + (rs.map (repoBytesAt k)).sum := by
  induction rs with
  | nil => simp
  | cons r rs ih =>
    intro h k
    simp only [List.foldl_cons, List.map_cons, List.sum_cons, ih, foldRepo_bytes]
    omega

/-- Helper: the fold of a payload list, projected on each order-insensitive
component, is the initial state plus a sum over the payloads. -/
theorem foldl_foldPayload_proj (ps : List Payload) : ∀ (st : AggState),
    (ps.foldl foldPayload st).commits = st.commits + (ps.map Payload.commits).sum ∧
    (ps.foldl foldPayload st).prs = st.prs + (ps.map Payload.prs).sum ∧
    (ps.foldl foldPayload st).reviews = st.reviews + (ps.map Payload.reviews).sum ∧
    (ps.foldl foldPayload st).issues = st.issues + (ps.map Payload.issues).sum ∧
    (∀ k, (ps.foldl foldPayload st).monthly k =
      st.monthly k + (ps.map (payloadMonthAt k)).sum) ∧
    (∀ k, (ps.foldl foldPayload st).langs.bytes k =
      st.langs.bytes k + (ps.map (payloadBytesAt k)).sum) := by
  induction ps with
  | nil => intro st; simp
  | cons p ps ih =>
    intro st
    obtain ⟨h1, h2, h3, h4, h5, h6⟩ := ih (foldPayload st p)
    simp only [List.foldl_cons, List.map_cons, List.sum_cons]
    refine ⟨?_, ?_, ?_, ?_, ?_, ?_⟩
    · rw [h1]; simp only [foldPayload]; omega
    · rw [h2]; simp only [foldPayload]; omega
    · rw [h3]; simp only [foldPayload]; omega
    · rw [h4]; simp only [foldPayload]; omega
    · intro k
      rw [h5 k]
      simp only [foldPayload, payloadMonthAt, foldl_foldDay_apply]
      omega
    · intro k
      rw [h6 k]
      simp only [foldPayload, payloadBytesAt, foldl_foldRepo_bytes]
      omega

/-- C2 (amended): folding the same multiset of window payloads in any
traversal order yields identical cumulative totals, an identical monthly
map, and identical per-language byte counts. (The stored `colorHex` is
*not* order-independent — it is the last-seen color; see the
counterexample.) -/
theorem aggregate_perm_invariant (l1 l2 : List Payload) (hperm : l1.Perm l2) :
    (aggregate l1).commits = (aggregate l2).commits ∧
    (aggregate l1).prs = (aggregate l2).prs ∧
    (aggregate l1).reviews = (aggregate l2).reviews ∧
    (aggregate l1).issues = (aggregate l2).issues ∧
    (aggregate l1).monthly = (aggregate l2).monthly ∧
    (aggregate l1).langs.bytes = (aggregate l2).langs.bytes := by
  obtain ⟨a1, a2, a3, a4, a5, a6⟩ := foldl_foldPayload_proj l1 initState
  obtain ⟨b1, b2, b3, b4, b5, b6⟩ := foldl_foldPayload_proj l2 initState
  unfold aggregate
  refine ⟨?_, ?_, ?_, ?_, funext fun k => ?_, funext fun k => ?_⟩
  · rw [a1, b1, ((hperm.map Payload.commits).sum_eq)]
  · rw [a2, b2, ((hperm.map Payload.prs).sum_eq)]
  · rw [a3, b3, ((hperm.map Payload.reviews).sum_eq)]
  · rw [a4, b4, ((hperm.map Payload.issues).sum_eq)]
  · rw [a5 k, b5 k, ((hperm.map (payloadMonthAt k)).sum_eq)]
  · rw [a6 k, b6 k, ((hperm.map (payloadBytesAt k)).sum_eq)]

/-- C2 counterexample: the language histogram is not identical across
traversal orders. Two payloads report language "L" with different colors;
the two orders of the same two-element set store different `colorHex`
values (the byte counts do agree). -/
theorem aggregate_color_depends_on_order :
    List.Perm [colorPayload "#111111", colorPayload "#222222"]
      [colorPayload "#222222", colorPayload "#111111"] ∧
    (aggregate [colorPayload "#111111", colorPayload "#222222"]).langs.color "L" = "#222222" ∧
    (aggregate [colorPayload "#222222", colorPayload "#111111"]).langs.color "L" = "#111111" ∧
    "#222222" ≠ "#111111" := by
  refine ⟨List.Perm.swap _ _ _, ?_, ?_, ?_⟩ <;> decide

/-- Witness for C2 at the two-payload swap. -/
theorem aggregate_perm_invariant_witness :
    (aggregate [colorPayload "#111111", colorPayload "#222222"]).commits =
      (aggregate [colorPayload "#222222", colorPayload "#111111"]).commits ∧
    (aggregate [colorPayload "#111111", colorPayload "#222222"]).prs =
      (aggregate [colorPayload "#222222", colorPayload "#111111"]).prs ∧
    (aggregate [colorPayload "#111111", colorPayload "#222222"]).reviews =
      (aggregate [colorPayload "#222222", colorPayload "#111111"]).reviews ∧
    (aggregate [colorPayload "#111111", colorPayload "#222222"]).issues =
      (aggregate [colorPayload "#222222", colorPayload "#111111"]).issues ∧
    (aggregate [colorPayload "#111111", colorPayload "#222222"]).monthly =
      (aggregate [colorPayload "#222222", colorPayload "#111111"]).monthly ∧
    (aggregate [colorPayload "#111111", colorPayload "#222222"]).langs.bytes =
      (aggregate [colorPayload "#222222", colorPayload "#111111"]).langs.bytes :=
  aggregate_perm_invariant _ _ (List.Perm.swap _ _ _)

/-- Helper: against the runaway source the loop state is irrelevant — no
amount of fuel makes `fetch_repo_stats` finish. -/
theorem fetch_repo_stats_runaway (fuel : ℕ) :
    ∀ s, fetch_repo_stats runawaySrc fuel s = none := by
  induction fuel with
  | zero => intro s; rfl
  | succ fuel ih =>
    intro s
    obtain ⟨rc, sc, cur⟩ := s
    simp only [fetch_repo_stats, runawaySrc]
    exact ih _

/-- C4 counterexample: against a source that reports `hasNextPage = true`
on every page, the `while True` walk of `fetch_repo_stats` never breaks:
no finite number of iterations produces a result. There is no hard cap
and no warning in the code. -/
theorem pagination_runaway_never_terminates :
    ¬ ∃ fuel, (fetch_repo_stats runawaySrc fuel (0, 0, none)).isSome = true := by
  rintro ⟨fuel, h⟩
  rw [fetch_repo_stats_runaway fuel] at h
  simp at h

/-- Helper: if the page at the end of `n` cursor steps is the last one,
`n + 1` iterations finish from any loop state. -/
theorem fetch_repo_stats_done (src : Option String → RepoPage) :
    ∀ (n : ℕ) (cur : Option String) (rc sc : ℕ),
      (src (cursorChain src cur n)).hasNextPage = false →
      (fetch_repo_stats src (n + 1) (rc, sc, cur)).isSome = true := by
  intro n
  induction n with
  | zero =>
    intro cur rc sc hdone
    simp only [cursorChain] at hdone
    simp [fetch_repo_stats, hdone]
  | succ n ih =>
    intro cur rc sc hdone
    simp only [cursorChain] at hdone
    simp only [fetch_repo_stats]
    cases hnext : (src cur).hasNextPage with
    | true => simpa using ih ((src cur).endCursor) _ _ hdone
    | false => simp

/-- C4 (amended): the pagination walk terminates exactly on the source's
word — if after some number `n` of cursor steps a page reports
`hasNextPage = false`, the loop finishes within `n + 1` iterations. No
hard cap bounds the iteration (see the counterexample: a source that
always reports another page loops forever). -/
theorem pagination_terminates_of_last_page (src : Option String → RepoPage) (n : ℕ)
    (hdone : (src (cursorChain src none n)).hasNextPage = false) :
    ∃ fuel, (fetch_repo_stats src fuel (0, 0, none)).isSome = true :=
  ⟨n + 1, fetch_repo_stats_done src n none 0 0 hdone⟩

/-- Witness for C4: a one-page source (two repositories with 2 and 3
stars) terminates. -/
theorem pagination_terminates_of_last_page_witness :
    ∃ fuel, (fetch_repo_stats
      (fun _ => { stars := [2, 3], hasNextPage := false, endCursor := none })
      fuel (0, 0, none)).isSome = true :=
  pagination_terminates_of_last_page _ 0 rfl

/-- Witness for C8: a forked repository reporting 7 bytes of language "X"
changes nothing. -/
theorem fork_contributes_nothing_witness :
    foldPayload initState
      { commits := 1, prs := 0, reviews := 0, issues := 0, days := []
        repos := [{ isFork := true
                    langs := [{ size := 7, name := some "X", color := some "#3572A5" }] }] } =
    foldPayload initState
      { commits := 1, prs := 0, reviews := 0, issues := 0, days := [], repos := [] } :=
  fork_contributes_nothing _ _ [] [] _ rfl rfl

end GenStats
